import Mathlib

/-!
# qbittorrent-cli: `pkg/qbittorrent/methods.go`

A shallow embedding of the client methods of `methods.go` and the properties
of its specification.

Conventions of the embedding.

* A Go `string` is a finite sequence of bytes: `GoString = List Byte`.
* A Go `error` is `Option GoError` (`none` is `nil`).
* `log.Fatalf` / `log.Fatal` end the process (`os.Exit(1)`); a method either
  returns to its caller or ends the process: `Outcome`.
* A write to a nil map and a nil dereference are run-time errors:
  `Outcome.crashed`.
* The range order over a Go map is unspecified; it is an argument (`MapOrder`)
  of the one method that ranges over a map.
* The request helpers of the client and the library calls whose results depend
  on data outside `methods.go` are the fields of `Env`; the functions of
  `strings`, `strconv` and `net/url` that the methods and the properties use
  are written out.
-/

set_option autoImplicit false

namespace Qbittorrent

/-! ## Strings -/

/-- One byte of a Go string. -/
abbrev Byte := Fin 256

/-- A Go `string`: a sequence of bytes. -/
abbrev GoString := List Byte

/-- The bytes of an ASCII literal (each character's code point, which for
ASCII is its one-byte UTF-8 encoding). -/
def lit (s : String) : GoString := s.data.map (fun c => Fin.ofNat c.toNat)

/-- Go `strings.HasPrefix(s, pre)`:
`len(s) >= len(pre) && s[:len(pre)] == pre`. -/
def HasPrefix (s pre : GoString) : Bool :=
  decide (pre.length ≤ s.length) && decide (s.take pre.length = pre)

/-- The byte of an ASCII character. -/
abbrev ch (c : Char) : Byte := Fin.ofNat c.toNat

/-- Go `strings.Join(elems, sep)`: nothing for no element, the element itself
for one, otherwise the first element followed by `sep` and the next element
for each further one. -/
def Join : List GoString → GoString → GoString
  | [], _ => []
  | [e], _ => e
  | e :: rest, sep => e ++ rest.foldl (fun b s => b ++ sep ++ s) []

/-- Go `strings.Split(s, sep)` for a separator `sep` of one byte: the pieces
of `s` between the occurrences of `sep` (one piece more than occurrences). -/
def splitByte (sep : Byte) : GoString → List GoString
  | [] => [[]]
  | c :: rest =>
    if c = sep then [] :: splitByte sep rest
    else
      match splitByte sep rest with
      | [] => [[c]]
      | p :: ps => (c :: p) :: ps

/-- Go `strings.Cut(s, sep)` for a separator of one byte: the text before the
first `sep`, the text after it, and whether `sep` occurs. -/
def cutByte (sep : Byte) : GoString → GoString × GoString × Bool
  | [] => ([], [], false)
  | c :: rest =>
    if c = sep then ([], rest, true)
    else ((c :: (cutByte sep rest).1), (cutByte sep rest).2.1, (cutByte sep rest).2.2)

/-- Go's `<` on strings: byte-wise lexicographic order. -/
def strLess : GoString → GoString → Bool
  | [], [] => false
  | [], _ :: _ => true
  | _ :: _, [] => false
  | a :: as, b :: bs => if a < b then true else if b < a then false else strLess as bs

/-- Go `strconv.FormatBool`. -/
def FormatBool (b : Bool) : GoString := if b then lit "true" else lit "false"

/-- A Go `error` value that is not nil. -/
structure GoError where
  msg : GoString
  deriving DecidableEq, Repr

/-- Go `strconv.ParseBool`. -/
def ParseBool (s : GoString) : Except GoError Bool :=
  if s = lit "1" ∨ s = lit "t" ∨ s = lit "T" ∨ s = lit "TRUE" ∨ s = lit "true" ∨ s = lit "True" then
    .ok true
  else if s = lit "0" ∨ s = lit "f" ∨ s = lit "F" ∨ s = lit "FALSE" ∨ s = lit "false"
      ∨ s = lit "False" then
    .ok false
  else .error ⟨lit "strconv.ParseBool: invalid syntax"⟩

/-! ## `net/url`: query values and their encoding -/

/-- Go `net/url.shouldEscape(c, encodeQueryComponent)`: everything but ASCII
letters, digits and `-`, `_`, `.`, `~` is escaped in a query component. -/
def shouldEscape (c : Byte) : Bool :=
  if (ch 'a' ≤ c ∧ c ≤ ch 'z') ∨ (ch 'A' ≤ c ∧ c ≤ ch 'Z') ∨ (ch '0' ≤ c ∧ c ≤ ch '9') then false
  else if c = ch '-' ∨ c = ch '_' ∨ c = ch '.' ∨ c = ch '~' then false
  else true

/-- The digit table `upperhex = "0123456789ABCDEF"` of `net/url`, indexed. -/
def upperhex (n : Nat) : Byte := (lit "0123456789ABCDEF").getD n 0

/-- What `net/url.escape` writes for one byte in mode `encodeQueryComponent`:
`+` for a space, `%XX` for a byte that `shouldEscape`, the byte itself
otherwise. -/
def escapeByte (c : Byte) : GoString :=
  if c = ch ' ' then [ch '+']
  else if shouldEscape c then [ch '%', upperhex (c.val >>> 4), upperhex (c.val &&& 15)]
  else [c]

/-- Go `url.QueryEscape(s)`. -/
def QueryEscape (s : GoString) : GoString := s.flatMap escapeByte

/-- Go `net/url.ishex`. -/
def ishex (c : Byte) : Bool :=
  (ch '0' ≤ c ∧ c ≤ ch '9') ∨ (ch 'a' ≤ c ∧ c ≤ ch 'f') ∨ (ch 'A' ≤ c ∧ c ≤ ch 'F')

/-- Go `net/url.unhex`. -/
def unhex (c : Byte) : Nat :=
  if ch '0' ≤ c ∧ c ≤ ch '9' then c.val - 48
  else if ch 'a' ≤ c ∧ c ≤ ch 'f' then c.val - 97 + 10
  else if ch 'A' ≤ c ∧ c ≤ ch 'F' then c.val - 65 + 10
  else 0

/-- Go `url.QueryUnescape(s)`: `%XX` becomes the byte `XX`, `+` becomes a
space; a `%` not followed by two hex digits is an error. -/
def QueryUnescape : GoString → Except GoError GoString
  | [] => .ok []
  | c :: rest =>
    if c = ch '%' then
      match rest with
      | a :: b :: rest2 =>
        if ishex a ∧ ishex b then
          match QueryUnescape rest2 with
          | .ok t => .ok (Fin.ofNat (unhex a * 16 + unhex b) :: t)
          | .error e => .error e
        else .error ⟨lit "invalid URL escape"⟩
      | _ => .error ⟨lit "invalid URL escape"⟩
    else
      match QueryUnescape rest with
      | .ok t => .ok ((if c = ch '+' then ch ' ' else c) :: t)
      | .error e => .error e

/-- Go `url.Values`, a `map[string][]string`: its entries, one per key, in
order of first insertion. -/
abbrev Values := List (GoString × List GoString)

/-- The Go expression `v[key]` (nil, the empty list, for an absent key). -/
def Values.get (v : Values) (key : GoString) : List GoString :=
  match v with
  | [] => []
  | (k, xs) :: rest => if k = key then xs else Values.get rest key

/-- Go `Values.Add(key, value)`: `v[key] = append(v[key], value)`. -/
def Values.Add (v : Values) (key value : GoString) : Values :=
  match v with
  | [] => [(key, [value])]
  | (k, xs) :: rest =>
    if k = key then (k, xs ++ [value]) :: rest else (k, xs) :: Values.Add rest key value

/-- Insertion of a key into a list sorted by `strLess`. -/
def insertKey (k : GoString) : List GoString → List GoString
  | [] => [k]
  | a :: rest => if strLess a k then a :: insertKey k rest else k :: a :: rest

/-- Go `slices.Sort(keys)` on strings. -/
def sortKeys : List GoString → List GoString
  | [] => []
  | k :: rest => insertKey k (sortKeys rest)

/-- Go `Values.Encode()`: the keys in sorted order, and for each value of a
key `QueryEscape(key) = QueryEscape(value)`, the pairs separated by `&`. -/
def Values.Encode (v : Values) : GoString :=
  (sortKeys (v.map Prod.fst)).foldl
    (fun buf k =>
      (v.get k).foldl
        (fun buf x =>
          (if buf.length > 0 then buf ++ [ch '&'] else buf)
            ++ QueryEscape k ++ [ch '='] ++ QueryEscape x)
        buf)
    []

/-- One round of the loop of Go `net/url.parseQuery` on the piece `key` cut
off at an `&`: a piece with a `;` is rejected, an empty piece is skipped,
otherwise the piece is cut at its first `=`, both sides are unescaped and the
value is appended to the key's values. -/
def parsePiece (acc : Values × Option GoError) (key : GoString) : Values × Option GoError :=
  if ch ';' ∈ key then (acc.1, some ⟨lit "invalid semicolon separator in query"⟩)
  else if key = [] then acc
  else
    match QueryUnescape (cutByte (ch '=') key).1 with
    | .error e => (acc.1, if acc.2 = none then some e else acc.2)
    | .ok k =>
      match QueryUnescape (cutByte (ch '=') key).2.1 with
      | .error e => (acc.1, if acc.2 = none then some e else acc.2)
      | .ok x => (acc.1.Add k x, acc.2)

/-- Go `url.ParseQuery(query)`: the loop
`for query != "" { key, query, _ = strings.Cut(query, "&"); ... }` visits the
pieces of `query` between its `&` in order (a last empty piece is skipped
either way). -/
def ParseQuery (query : GoString) : Values × Option GoError :=
  (splitByte (ch '&') query).foldl parsePiece ([], none)

/-! ## Data model -/

/-- Modelled from the spec: the `Torrent` record type is declared outside
`methods.go`. The spec (section 3) gives it a hash, a name, a category, tags
and further service-reported fields that are passed through untouched; the
latter are kept together in `Other`. Go compares structs field by field, which
is the derived equality. -/
structure Torrent where
  Hash : GoString
  Name : GoString
  Category : GoString
  Tags : GoString
  Other : GoString
  deriving DecidableEq, Repr

/-! ## The prefix matcher (`GetTorrentsByPrefixes`, lines 157-187) -/

/-- A Go `map[Torrent]bool` in which every stored value is `true`: the list of
its keys, without repetition, in order of first insertion. -/
abbrev TorrentSet := List Torrent

/-- The Go statement `m[t] = true`. -/
def TorrentSet.set (m : TorrentSet) (t : Torrent) : TorrentSet :=
  if t ∈ m then m else m ++ [t]

/-- The Go expression `m[t]` (the zero value `false` for an absent key). -/
def TorrentSet.get (m : TorrentSet) (t : Torrent) : Bool := decide (t ∈ m)

/-- The inner loops at lines 160-165 and 173-178:
`for _, target := range terms { if strings.HasPrefix(field, target) { m[torrent] = true; break } }`. -/
def prefixLoop (m : TorrentSet) (torrent : Torrent) (field : GoString) :
    List GoString → TorrentSet
  | [] => m
  | target :: rest =>
    if HasPrefix field target then m.set torrent
    else prefixLoop m torrent field rest

/-- The body of the outer loop (lines 159-179) for one torrent. -/
def matchStep (terms : List GoString) (hashes names : Bool)
    (m : TorrentSet) (torrent : Torrent) : TorrentSet :=
  let m1 := if hashes then prefixLoop m torrent torrent.Hash terms else m
  if hashes && m1.get torrent then m1
  else if names then prefixLoop m1 torrent torrent.Name terms
  else m1

/-- The map `matchedTorrents` after the loop at lines 157-180. -/
def matchedTorrents (torrents : List Torrent) (terms : List GoString)
    (hashes names : Bool) : TorrentSet :=
  torrents.foldl (matchStep terms hashes names) []

/-- The order in which one `range` over a map visits its keys: some
rearrangement of the keys. -/
structure MapOrder where
  visit : List Torrent → List Torrent
  perm : ∀ keys, (visit keys).Perm keys

/-- Visiting the keys in insertion order. -/
def MapOrder.insertion : MapOrder := ⟨id, fun _ => List.Perm.refl _⟩

/-- Visiting the keys in reverse insertion order. -/
def MapOrder.reversed : MapOrder := ⟨List.reverse, fun l => List.reverse_perm l⟩

/-- Lines 157-187 of `GetTorrentsByPrefixes`, on the list `torrents` that
`c.GetTorrents()` returned: build the map, then collect its keys by ranging
over it. -/
def matchByPrefix (ord : MapOrder) (torrents : List Torrent)
    (terms : List GoString) (hashes names : Bool) : List Torrent :=
  ord.visit (matchedTorrents torrents terms hashes names)

/-- Modelled from the spec: the `TorrentTracker` record type is declared
outside `methods.go`; the spec (section 3) gives it an announce URL, a status
and a message. -/
structure TorrentTracker where
  Url : GoString
  Status : Int
  Msg : GoString
  deriving DecidableEq, Repr

/-- Go `type TorrentFilter string`. -/
abbrev TorrentFilter := GoString

/-- A Go `map[string]string` that is not nil: its entries, one per key. -/
abbrev StringMap := List (GoString × GoString)

/-- The Go expression `m[key]` with its presence flag. -/
def StringMap.get (m : StringMap) (key : GoString) : Option GoString :=
  match m with
  | [] => none
  | (k, x) :: rest => if k = key then some x else StringMap.get rest key

/-- The Go statement `m[key] = value` on a map that is not nil. -/
def StringMap.set (m : StringMap) (key value : GoString) : StringMap :=
  match m with
  | [] => [(key, value)]
  | (k, x) :: rest =>
    if k = key then (k, value) :: rest else (k, x) :: StringMap.set rest key value

/-- How a method call ends. -/
inductive Outcome (α : Type) where
  /-- The method returns to its caller. -/
  | returned (a : α)
  /-- The method reaches `log.Fatalf` or `log.Fatal`: the message is logged
  and the process exits with status 1. -/
  | fatal
  /-- The method makes a run-time error (a write to a nil map, a nil
  dereference). -/
  | crashed
  deriving DecidableEq, Repr

/-- Whether the method came back to its caller. -/
def Outcome.isReturned {α : Type} : Outcome α → Bool
  | .returned _ => true
  | _ => false

/-! ## The client and the world outside `methods.go` -/

/-- One call of `c.get`, `c.post` or `c.postFile`, with its arguments (`none`
for a nil map). -/
inductive Request where
  | get (endpoint : GoString) (opts : Option StringMap)
  | post (endpoint : GoString) (opts : Option StringMap)
  | postFile (endpoint : GoString) (fileName : GoString) (opts : Option StringMap)
  deriving DecidableEq, Repr

/-- What the methods read of an `*http.Response`: the status code, what
`ioutil.ReadAll(resp.Body)` gives, and the cookies. -/
structure Response where
  StatusCode : Int
  Body : Except GoError GoString
  Cookies : List GoString

/-- Go `http.StatusOK`. -/
def StatusOK : Int := 200

/-- The 20 bytes of an info hash (`metainfo.Hash`). -/
abbrev InfoHash := List Byte

/-- The digit table of `fmt`'s `%x`. -/
def lowerhex (n : Nat) : Byte := (lit "0123456789abcdef").getD n 0

/-- Package `metainfo`: `Hash.HexString()`, which is `fmt.Sprintf("%x", h[:])`. -/
def HexString (h : InfoHash) : GoString :=
  h.flatMap (fun b => [lowerhex (b.val >>> 4), lowerhex (b.val &&& 15)])

/-- Modelled from the spec: the request helpers `c.get`, `c.post` and
`c.postFile` of the client are declared outside `methods.go`. By section 4.2
of the spec each issues one HTTP request with the session's credentials and
gives back the response, or the error of a transport-level failure:
`roundTrip`. The other fields are the library calls of `methods.go` whose
results depend on data outside it: `json.Unmarshal` into a `[]Torrent` and a
`[]TorrentTracker`, `metainfo.LoadFromFile(file)` followed by
`HashInfoBytes()`, `metainfo.ParseMagnetURI(u)` followed by `InfoHash`, and
whether `url.Parse(text)` succeeds (it gives a nil URL when it does not). -/
structure Env where
  roundTrip : Request → Except GoError Response
  unmarshalTorrents : GoString → Except GoError (List Torrent)
  unmarshalTrackers : GoString → Except GoError (List TorrentTracker)
  loadFromFile : GoString → Except GoError InfoHash
  parseMagnetURI : GoString → Except GoError InfoHash
  urlParses : GoString → Bool

/-- The connection settings read by `Login`. -/
structure Settings where
  Hostname : GoString
  Username : GoString
  Password : GoString
  SSL : Bool
  deriving DecidableEq, Repr

/-- The client: its settings, the cookie jar as the list of the
`Jar.SetCookies(url, cookies)` calls made on it (the URL as the text handed to
`url.Parse`), and the list of the calls of the request helpers so far. -/
structure Client where
  settings : Settings
  jar : List (GoString × List GoString)
  sent : List Request
  deriving DecidableEq, Repr

/-- One call of a request helper: the request is issued and recorded. -/
def Client.send (env : Env) (c : Client) (r : Request) :
    Except GoError Response × Client :=
  (env.roundTrip r, { c with sent := c.sent ++ [r] })

/-! ## The methods of `methods.go`

Each method gives how the call ends together with the client as the call
leaves it (on `fatal` and `crashed`: as it was when the process ended). In a
branch reached with `err == nil` the Go variable `err` is bound to `none`. -/

/-- The call `c.post("auth/login", credentials)` of `Login` (lines 17-21). -/
def Login_request (c : Client) : Request :=
  let credentials : StringMap :=
    StringMap.set (StringMap.set [] (lit "username") c.settings.Username)
      (lit "password") c.settings.Password
  .post (lit "auth/login") (some credentials)

/-- The text `reqUrl` that `Login` hands to `url.Parse` (lines 27-33). -/
def Login_reqUrl (c : Client) : GoString :=
  let ssl := if c.settings.SSL then lit "https" else lit "http"
  ssl ++ lit "://" ++ c.settings.Hostname

/-- `Login` (lines 16-40). The error of `url.Parse` is dropped (line 35); with
a nil `cookieURL` the call `Jar.SetCookies(cookieURL, cookies)` of the standard
cookie jar, which reads the URL's scheme once there are cookies, is a nil
dereference. -/
def Login (env : Env) (c : Client) : Outcome (Option GoError) × Client :=
  let (r, c1) := c.send env (Login_request c)
  match r with
  | .error _ => (.fatal, c1)
  | .ok resp =>
    if resp.StatusCode ≠ StatusOK then (.fatal, c1)
    else
      if resp.Cookies.length > 0 then
        if env.urlParses (Login_reqUrl c) then
          (.returned none, { c1 with jar := c1.jar ++ [(Login_reqUrl c, resp.Cookies)] })
        else (.crashed, c1)
      else (.returned none, c1)

/-- The call `c.get("torrents/info", nil)` of `GetTorrents` (lines 45). -/
def GetTorrents_request : Request :=
  .get (lit "torrents/info") none

/-- `GetTorrents` (lines 42-63). -/
def GetTorrents (env : Env) (c : Client) :
    Outcome (List Torrent × Option GoError) × Client :=
  let (r, c1) := c.send env GetTorrents_request
  match r with
  | .error _ => (.fatal, c1)
  | .ok resp =>
    match resp.Body with
    | .error _ => (.fatal, c1)
    | .ok body =>
      match env.unmarshalTorrents body with
      | .error _ => (.fatal, c1)
      | .ok torrents => (.returned (torrents, none), c1)

/-- The call `c.get("torrents/info?"+params, nil)` of `GetTorrentsFilter` (lines 68-72). -/
def GetTorrentsFilter_request (filter : TorrentFilter) : Request :=
  let v : Values := Values.Add [] (lit "filter") filter
  let params := Values.Encode v
  .get (lit "torrents/info?" ++ params) none

/-- `GetTorrentsFilter` (lines 65-90). -/
def GetTorrentsFilter (env : Env) (c : Client) (filter : TorrentFilter) :
    Outcome (List Torrent × Option GoError) × Client :=
  let (r, c1) := c.send env (GetTorrentsFilter_request filter)
  match r with
  | .error _ => (.fatal, c1)
  | .ok resp =>
    match resp.Body with
    | .error _ => (.fatal, c1)
    | .ok body =>
      match env.unmarshalTorrents body with
      | .error _ => (.fatal, c1)
      | .ok torrents => (.returned (torrents, none), c1)

/-- The call `c.get("torrents/info?"+params, nil)` of `GetTorrentsByCategory` (lines 95-100). -/
def GetTorrentsByCategory_request (category : GoString) : Request :=
  let v : Values := Values.Add [] (lit "category") category
  let params := Values.Encode v
  .get (lit "torrents/info?" ++ params) none

/-- `GetTorrentsByCategory` (lines 92-118). -/
def GetTorrentsByCategory (env : Env) (c : Client) (category : GoString) :
    Outcome (List Torrent × Option GoError) × Client :=
  let (r, c1) := c.send env (GetTorrentsByCategory_request category)
  match r with
  | .error _ => (.fatal, c1)
  | .ok resp =>
    match resp.Body with
    | .error _ => (.fatal, c1)
    | .ok body =>
      match env.unmarshalTorrents body with
      | .error _ => (.fatal, c1)
      | .ok torrents => (.returned (torrents, none), c1)

/-- `GetTorrentsByPrefixes` (lines 151-188): the list is fetched with
`GetTorrents`, a non-nil error of which is fatal, then matched. -/
def GetTorrentsByPrefixes (env : Env) (ord : MapOrder) (c : Client)
    (terms : List GoString) (hashes names : Bool) :
    Outcome (List Torrent × Option GoError) × Client :=
  match GetTorrents env c with
  | (.fatal, c1) => (.fatal, c1)
  | (.crashed, c1) => (.crashed, c1)
  | (.returned (_, some _), c1) => (.fatal, c1)
  | (.returned (torrents, none), c1) =>
    (.returned (matchByPrefix ord torrents terms hashes names, none), c1)

/-- The call `c.get("torrents/trackers?"+p, nil)` of `GetTorrentTrackers` (lines 193-198). -/
def GetTorrentTrackers_request (hash : GoString) : Request :=
  let params : Values := Values.Add [] (lit "hash") hash
  let p := Values.Encode params
  .get (lit "torrents/trackers?" ++ p) none

/-- `GetTorrentTrackers` (lines 190-216). -/
def GetTorrentTrackers (env : Env) (c : Client) (hash : GoString) :
    Outcome (List TorrentTracker × Option GoError) × Client :=
  let (r, c1) := c.send env (GetTorrentTrackers_request hash)
  match r with
  | .error _ => (.fatal, c1)
  | .ok resp =>
    match resp.Body with
    | .error _ => (.fatal, c1)
    | .ok body =>
      match env.unmarshalTrackers body with
      | .error _ => (.fatal, c1)
      | .ok trackers => (.returned (trackers, none), c1)

/-- The call `c.postFile("torrents/add", file, options)` of
`AddTorrentFromFile` (line 226). -/
def AddTorrentFromFile_request (file : GoString) (options : Option StringMap) : Request :=
  .postFile (lit "torrents/add") file options

/-- `AddTorrentFromFile` (lines 219-236). -/
def AddTorrentFromFile (env : Env) (c : Client) (file : GoString)
    (options : Option StringMap) : Outcome (GoString × Option GoError) × Client :=
  match env.loadFromFile file with
  | .error _ => (.fatal, c)
  | .ok t =>
    let (r, c1) := c.send env (AddTorrentFromFile_request file options)
    match r with
    | .error e => (.returned ([], some e), c1)
    | .ok res =>
      let err : Option GoError := none
      if res.StatusCode ≠ StatusOK then (.returned ([], err), c1)
      else (.returned (HexString t, none), c1)

/-- The call `c.post("torrents/add", options)` of `AddTorrentFromMagnet`
(lines 244-245), after `options["urls"] = u` on a map that is not nil. -/
def AddTorrentFromMagnet_request (u : GoString) (opts : StringMap) : Request :=
  .post (lit "torrents/add") (some (StringMap.set opts (lit "urls") u))

/-- `AddTorrentFromMagnet` (lines 238-255). `options["urls"] = u` is a
run-time error on a nil map. -/
def AddTorrentFromMagnet (env : Env) (c : Client) (u : GoString)
    (options : Option StringMap) : Outcome (GoString × Option GoError) × Client :=
  match env.parseMagnetURI u with
  | .error _ => (.fatal, c)
  | .ok m =>
    match options with
    | none => (.crashed, c)
    | some opts =>
      let (r, c1) := c.send env (AddTorrentFromMagnet_request u opts)
      match r with
      | .error e => (.returned ([], some e), c1)
      | .ok res =>
        let err : Option GoError := none
        if res.StatusCode ≠ StatusOK then (.returned ([], err), c1)
        else (.returned (HexString m, none), c1)

/-- The `url.Values` that `DeleteTorrents` builds (lines 258-263). -/
def DeleteTorrents_values (hashes : List GoString) (deleteFiles : Bool) : Values :=
  let hv := Join hashes (lit "|")
  Values.Add (Values.Add [] (lit "hashes") hv) (lit "deleteFiles") (FormatBool deleteFiles)

/-- The call `c.get("torrents/delete?"+encodedHashes, nil)` of `DeleteTorrents` (line 267). -/
def DeleteTorrents_request (hashes : List GoString) (deleteFiles : Bool) : Request :=
  .get (lit "torrents/delete?" ++ Values.Encode (DeleteTorrents_values hashes deleteFiles)) none

/-- `DeleteTorrents` (lines 257-277). -/
def DeleteTorrents (env : Env) (c : Client) (hashes : List GoString) (deleteFiles : Bool) :
    Outcome (Option GoError) × Client :=
  let (r, c1) := c.send env (DeleteTorrents_request hashes deleteFiles)
  match r with
  | .error _ => (.fatal, c1)
  | .ok resp =>
    let err : Option GoError := none
    if resp.StatusCode ≠ StatusOK then (.returned err, c1)
    else (.returned none, c1)

/-- The `url.Values` that `ReAnnounceTorrents`, `Pause` and `Resume` each build
(lines 280-284, 301-305, 322-326). -/
def hashes_values (hashes : List GoString) : Values :=
  let hv := Join hashes (lit "|")
  Values.Add [] (lit "hashes") hv

/-- The call `c.get("torrents/reannounce?"+encodedHashes, nil)` of `ReAnnounceTorrents` (line 288). -/
def ReAnnounceTorrents_request (hashes : List GoString) : Request :=
  .get (lit "torrents/reannounce?" ++ Values.Encode (hashes_values hashes)) none

/-- `ReAnnounceTorrents` (lines 279-298). -/
def ReAnnounceTorrents (env : Env) (c : Client) (hashes : List GoString) :
    Outcome (Option GoError) × Client :=
  let (r, c1) := c.send env (ReAnnounceTorrents_request hashes)
  match r with
  | .error _ => (.fatal, c1)
  | .ok resp =>
    let err : Option GoError := none
    if resp.StatusCode ≠ StatusOK then (.returned err, c1)
    else (.returned none, c1)

/-- The call `c.get("torrents/pause?"+encodedHashes, nil)` of `Pause` (line 309). -/
def Pause_request (hashes : List GoString) : Request :=
  .get (lit "torrents/pause?" ++ Values.Encode (hashes_values hashes)) none

/-- `Pause` (lines 300-319). -/
def Pause (env : Env) (c : Client) (hashes : List GoString) :
    Outcome (Option GoError) × Client :=
  let (r, c1) := c.send env (Pause_request hashes)
  match r with
  | .error _ => (.fatal, c1)
  | .ok resp =>
    let err : Option GoError := none
    if resp.StatusCode ≠ StatusOK then (.returned err, c1)
    else (.returned none, c1)

/-- The call `c.get("torrents/resume?"+encodedHashes, nil)` of `Resume` (line 330). -/
def Resume_request (hashes : List GoString) : Request :=
  .get (lit "torrents/resume?" ++ Values.Encode (hashes_values hashes)) none

/-- `Resume` (lines 321-340). -/
def Resume (env : Env) (c : Client) (hashes : List GoString) :
    Outcome (Option GoError) × Client :=
  let (r, c1) := c.send env (Resume_request hashes)
  match r with
  | .error _ => (.fatal, c1)
  | .ok resp =>
    let err : Option GoError := none
    if resp.StatusCode ≠ StatusOK then (.returned err, c1)
    else (.returned none, c1)

/-- The `url.Values` that `SetCategory` builds (lines 343-354). -/
def SetCategory_values (hashes : List GoString) (category : GoString) : Values :=
  let encodedHashes := if hashes.length > 0 then Join hashes (lit "|") else []
  Values.Add (Values.Add [] (lit "hashes") encodedHashes) (lit "category") category

/-- The call `c.get("torrents/setCategory?"+encodedHashes, nil)` of `SetCategory` (line 357). -/
def SetCategory_request (hashes : List GoString) (category : GoString) : Request :=
  .get (lit "torrents/setCategory?" ++ Values.Encode (SetCategory_values hashes category)) none

/-- `SetCategory` (lines 342-367). -/
def SetCategory (env : Env) (c : Client) (hashes : List GoString) (category : GoString) :
    Outcome (Option GoError) × Client :=
  let (r, c1) := c.send env (SetCategory_request hashes category)
  match r with
  | .error _ => (.fatal, c1)
  | .ok resp =>
    let err : Option GoError := none
    if resp.StatusCode ≠ StatusOK then (.returned err, c1)
    else (.returned none, c1)

/-- The `url.Values` that `SetTag` builds (lines 370-381). -/
def SetTag_values (hashes : List GoString) (tag : GoString) : Values :=
  let encodedHashes := if hashes.length > 0 then Join hashes (lit "|") else []
  Values.Add (Values.Add [] (lit "hashes") encodedHashes) (lit "tags") tag

/-- The call `c.get("torrents/addTags?"+encodedHashes, nil)` of `SetTag` (line 384). -/
def SetTag_request (hashes : List GoString) (tag : GoString) : Request :=
  .get (lit "torrents/addTags?" ++ Values.Encode (SetTag_values hashes tag)) none

/-- `SetTag` (lines 369-394). -/
def SetTag (env : Env) (c : Client) (hashes : List GoString) (tag : GoString) :
    Outcome (Option GoError) × Client :=
  let (r, c1) := c.send env (SetTag_request hashes tag)
  match r with
  | .error _ => (.fatal, c1)
  | .ok resp =>
    let err : Option GoError := none
    if resp.StatusCode ≠ StatusOK then (.returned err, c1)
    else (.returned none, c1)

/-- The matching condition of the loop body: the hash (if `hashes`) or the
name (if `names`) of `t` starts with some term. -/
def Matches (terms : List GoString) (hashes names : Bool) (t : Torrent) : Prop :=
  (hashes = true ∧ ∃ p ∈ terms, p <+: t.Hash) ∨ (names = true ∧ ∃ p ∈ terms, p <+: t.Name)

/-! ## Concrete data for the examples -/

/-- A torrent with hash `abcdef0123` and name `Movie Title`. -/
def movie : Torrent := ⟨lit "abcdef0123", lit "Movie Title", [], [], []⟩

/-- A second record with the hash of `movie` and another name. -/
def movieRenamed : Torrent := ⟨lit "abcdef0123", lit "Movie Title (2)", [], [], []⟩

/-- A JSON array with the one torrent `movie`. -/
def movieJSON : GoString :=
  lit "[\x7b\"hash\":\"abcdef0123\",\"name\":\"Movie Title\"\x7d]"

/-- A JSON array with `movie` and `movieRenamed`. -/
def twoRecordsJSON : GoString :=
  lit ("[\x7b\"hash\":\"abcdef0123\",\"name\":\"Movie Title\"\x7d," ++
    "\x7b\"hash\":\"abcdef0123\",\"name\":\"Movie Title (2)\"\x7d]")

/-- A torrent with another hash, `abc999`, and the name `Other`. -/
def other : Torrent := ⟨lit "abc999", lit "Other", [], [], []⟩

/-- A JSON array in which the record `movie` stands twice, around `other`. -/
def repeatedJSON : GoString :=
  lit ("[\x7b\"hash\":\"abcdef0123\",\"name\":\"Movie Title\"\x7d," ++
    "\x7b\"hash\":\"abc999\",\"name\":\"Other\"\x7d," ++
    "\x7b\"hash\":\"abcdef0123\",\"name\":\"Movie Title\"\x7d]")

/-- A magnet link with the info hash `aa...a` (40 hex digits). -/
def magnetLink : GoString :=
  lit "magnet:?xt=urn:btih:AAAAAAAAAAAAAAAAAAAAAAAAAAAAAAAAAAAAAAAA"

/-- The info hash of `magnetLink`: 20 bytes `0xAA`. -/
def magnetHash : InfoHash := List.replicate 20 170

/-- A world for the examples, in which every request is answered by `answer`.
The library calls are given by their values on the texts of the examples:
`json.Unmarshal` on `movieJSON`, `twoRecordsJSON` and `repeatedJSON` (any
other text used in the examples is not JSON), `metainfo.ParseMagnetURI` on `magnetLink`, a file
`movie.torrent` with the same info hash, and `url.Parse` on the URL of
`client0`. -/
def exampleEnv (answer : Except GoError Response) : Env where
  roundTrip := fun _ => answer
  unmarshalTorrents := fun body =>
    if body = movieJSON then .ok [movie]
    else if body = twoRecordsJSON then .ok [movie, movieRenamed]
    else if body = repeatedJSON then .ok [movie, other, movie]
    else .error ⟨lit "invalid character"⟩
  unmarshalTrackers := fun body =>
    if body = lit "[]" then .ok []
    else .error ⟨lit "invalid character"⟩
  loadFromFile := fun file =>
    if file = lit "movie.torrent" then .ok magnetHash
    else .error ⟨lit "no such file"⟩
  parseMagnetURI := fun u =>
    if u = magnetLink then .ok magnetHash
    else .error ⟨lit "not a magnet link"⟩
  urlParses := fun text => decide (text = lit "http://localhost:8080")

/-- A response with the given status and body, without cookies. -/
def reply (status : Int) (body : GoString) : Except GoError Response :=
  .ok ⟨status, .ok body, []⟩

/-- A transport-level failure. -/
def refused : Except GoError Response := .error ⟨lit "connection refused"⟩

/-- A client that has issued no request yet. -/
def client0 : Client := ⟨⟨lit "localhost:8080", lit "admin", lit "adminadmin", false⟩, [], []⟩

/-! ## Conditions on the answer to a request -/

/-- The request meets no transport-level failure. -/
def Env.answers (env : Env) (r : Request) : Prop :=
  ∃ resp, env.roundTrip r = .ok resp

/-- The request meets no transport-level failure and the status is 200. -/
def Env.answersOK (env : Env) (r : Request) : Prop :=
  ∃ resp, env.roundTrip r = .ok resp ∧ resp.StatusCode = StatusOK

/-- The request meets no transport-level failure, the body can be read and
`json.Unmarshal` decodes it into a list of torrents. -/
def Env.answersTorrents (env : Env) (r : Request) : Prop :=
  ∃ resp body ts, env.roundTrip r = .ok resp ∧ resp.Body = .ok body ∧
    env.unmarshalTorrents body = .ok ts

/-- The request meets no transport-level failure, the body can be read and
`json.Unmarshal` decodes it into a list of trackers. -/
def Env.answersTrackers (env : Env) (r : Request) : Prop :=
  ∃ resp body ts, env.roundTrip r = .ok resp ∧ resp.Body = .ok body ∧
    env.unmarshalTrackers body = .ok ts

/-- The call returns to its caller when `cond` holds, and ends the process in
`log.Fatalf` when it does not. -/
def ReturnsIff {α : Type} (o : Outcome α) (cond : Prop) : Prop :=
  (cond → o.isReturned = true) ∧ (¬ cond → o = .fatal)

deriving instance DecidableEq for Except

/-! ## Lemmas: strings -/

set_option maxRecDepth 100000 in
theorem escapeByte_shape : ∀ c : Byte,
    (escapeByte c = [c] ∧ c ≠ ch '%' ∧ c ≠ ch '+') ∨
    (escapeByte c = [ch '+'] ∧ c = ch ' ') ∨
    (escapeByte c = [ch '%', upperhex (c.val >>> 4), upperhex (c.val &&& 15)] ∧
      ishex (upperhex (c.val >>> 4)) = true ∧ ishex (upperhex (c.val &&& 15)) = true ∧
      Fin.ofNat (unhex (upperhex (c.val >>> 4)) * 16 + unhex (upperhex (c.val &&& 15))) = c) := by
  decide

set_option maxRecDepth 100000 in
theorem escapeByte_safe : ∀ c : Byte,
    (escapeByte c).all (fun x => decide (x ≠ ch '&' ∧ x ≠ ch ';' ∧ x ≠ ch '=')) = true := by
  decide

theorem QueryUnescape_escapeByte_append (c : Byte) (t : GoString) :
    QueryUnescape (escapeByte c ++ t) =
      match QueryUnescape t with
      | .ok u => .ok (c :: u)
      | .error e => .error e := by
  rcases escapeByte_shape c with ⟨h, h1, h2⟩ | ⟨h, h1⟩ | ⟨h, h1, h2, h3⟩
  · rw [h, List.singleton_append, QueryUnescape.eq_def]
    simp only [if_neg h1, if_neg h2]
  · rw [h, List.singleton_append, QueryUnescape.eq_def]
    simp only [if_neg (show ch '+' ≠ ch '%' by decide), if_true, h1]
  · rw [h]
    simp only [List.cons_append, List.nil_append]
    rw [QueryUnescape.eq_def]
    simp only [h1, h2, and_self, if_true, h3]

theorem QueryUnescape_QueryEscape (s : GoString) :
    QueryUnescape (QueryEscape s) = .ok s := by
  induction s with
  | nil => rfl
  | cons c rest ih =>
    have : QueryEscape (c :: rest) = escapeByte c ++ QueryEscape rest := by
      simp [QueryEscape]
    rw [this, QueryUnescape_escapeByte_append, ih]

theorem QueryEscape_safe (s : GoString) (x : Byte) (hx : x ∈ QueryEscape s) :
    x ≠ ch '&' ∧ x ≠ ch ';' ∧ x ≠ ch '=' := by
  unfold QueryEscape at hx
  rw [List.mem_flatMap] at hx
  obtain ⟨c, _, hc⟩ := hx
  have h := escapeByte_safe c
  rw [List.all_eq_true] at h
  exact of_decide_eq_true (h x hc)

theorem splitByte_of_not_mem (sep : Byte) (s : GoString) (h : sep ∉ s) :
    splitByte sep s = [s] := by
  induction s with
  | nil => rfl
  | cons c rest ih =>
    rw [List.mem_cons, not_or] at h
    unfold splitByte
    rw [if_neg (fun e => h.1 e.symm), ih h.2]

theorem splitByte_append_sep (sep : Byte) (a b : GoString) (h : sep ∉ a) :
    splitByte sep (a ++ sep :: b) = a :: splitByte sep b := by
  induction a with
  | nil => simp [splitByte]
  | cons c rest ih =>
    rw [List.mem_cons, not_or] at h
    rw [List.cons_append, splitByte, if_neg (fun e => h.1 e.symm), ih h.2]

theorem cutByte_append_sep (sep : Byte) (a b : GoString) (h : sep ∉ a) :
    cutByte sep (a ++ sep :: b) = (a, b, true) := by
  induction a with
  | nil => simp [cutByte]
  | cons c rest ih =>
    rw [List.mem_cons, not_or] at h
    rw [List.cons_append, cutByte, if_neg (fun e => h.1 e.symm), ih h.2]

theorem pair_safe (k x : GoString) (y : Byte) (hy : y ∈ QueryEscape k ++ ch '=' :: QueryEscape x) :
    y ≠ ch '&' ∧ y ≠ ch ';' := by
  rw [List.mem_append, List.mem_cons] at hy
  rcases hy with h | h | h
  · exact ⟨(QueryEscape_safe k y h).1, (QueryEscape_safe k y h).2.1⟩
  · subst h; decide
  · exact ⟨(QueryEscape_safe x y h).1, (QueryEscape_safe x y h).2.1⟩

theorem parsePiece_pair (acc : Values × Option GoError) (k x : GoString) :
    parsePiece acc (QueryEscape k ++ ch '=' :: QueryEscape x) = (Values.Add acc.1 k x, acc.2) := by
  have h1 : ch ';' ∉ QueryEscape k ++ ch '=' :: QueryEscape x :=
    fun h => (pair_safe k x _ h).2 rfl
  have h2 : QueryEscape k ++ ch '=' :: QueryEscape x ≠ [] := by simp
  have h3 : ch '=' ∉ QueryEscape k := fun h => (QueryEscape_safe k _ h).2.2 rfl
  unfold parsePiece
  rw [if_neg h1, if_neg h2, cutByte_append_sep _ _ _ h3]
  simp only [QueryUnescape_QueryEscape]

theorem ParseQuery_one (k x : GoString) :
    ParseQuery (QueryEscape k ++ ch '=' :: QueryEscape x) = ([(k, [x])], none) := by
  have h : ch '&' ∉ QueryEscape k ++ ch '=' :: QueryEscape x :=
    fun h => (pair_safe k x _ h).1 rfl
  unfold ParseQuery
  rw [splitByte_of_not_mem _ _ h, List.foldl_cons, List.foldl_nil, parsePiece_pair]
  rfl

theorem ParseQuery_two (k1 x1 k2 x2 : GoString) :
    ParseQuery ((QueryEscape k1 ++ ch '=' :: QueryEscape x1) ++
        ch '&' :: (QueryEscape k2 ++ ch '=' :: QueryEscape x2)) =
      (Values.Add [(k1, [x1])] k2 x2, none) := by
  have h1 : ch '&' ∉ QueryEscape k1 ++ ch '=' :: QueryEscape x1 :=
    fun h => (pair_safe k1 x1 _ h).1 rfl
  have h2 : ch '&' ∉ QueryEscape k2 ++ ch '=' :: QueryEscape x2 :=
    fun h => (pair_safe k2 x2 _ h).1 rfl
  unfold ParseQuery
  rw [splitByte_append_sep _ _ _ h1, splitByte_of_not_mem _ _ h2, List.foldl_cons,
    List.foldl_cons, List.foldl_nil, parsePiece_pair, parsePiece_pair]
  rfl

theorem Encode_one (k x : GoString) :
    Values.Encode (Values.Add [] k x) = QueryEscape k ++ ch '=' :: QueryEscape x := by
  simp [Values.Encode, Values.Add, sortKeys, insertKey, Values.get]

theorem Encode_two (k1 x1 k2 x2 : GoString) (h : strLess k2 k1 = true) (hne : k1 ≠ k2) :
    Values.Encode (Values.Add (Values.Add [] k1 x1) k2 x2) =
      (QueryEscape k2 ++ ch '=' :: QueryEscape x2) ++
        ch '&' :: (QueryEscape k1 ++ ch '=' :: QueryEscape x1) := by
  simp [Values.Encode, Values.Add, sortKeys, insertKey, Values.get, h, hne, Ne.symm hne]

theorem foldl_sep (sep acc : GoString) (rest : List GoString) :
    rest.foldl (fun b s => b ++ sep ++ s) acc = acc ++ (rest.map (fun s => sep ++ s)).flatten := by
  induction rest generalizing acc with
  | nil => simp
  | cons r rs ih => rw [List.foldl_cons, ih]; simp

theorem Join_cons (e : GoString) (rest : List GoString) (sep : GoString) :
    Join (e :: rest) sep = e ++ (rest.map (fun s => sep ++ s)).flatten := by
  cases rest with
  | nil => simp [Join]
  | cons r rs =>
    rw [Join.eq_def]
    simp only [foldl_sep, List.nil_append]

theorem Join_eq_intercalate (H : List GoString) (sep : GoString) :
    Join H sep = List.intercalate sep H := by
  cases H with
  | nil => rfl
  | cons e rest =>
    rw [Join_cons]
    induction rest generalizing e with
    | nil => simp [List.intercalate]
    | cons r rs ih =>
      have := ih r
      simp only [List.intercalate, List.intersperse, List.map_cons, List.flatten_cons,
        List.append_assoc] at this ⊢
      rw [this]

theorem splitByte_Join (sep : Byte) (H : List GoString) (hne : H ≠ [])
    (hsep : ∀ h ∈ H, sep ∉ h) : splitByte sep (Join H [sep]) = H := by
  cases H with
  | nil => exact absurd rfl hne
  | cons e rest =>
    rw [Join_cons]
    clear hne
    induction rest generalizing e with
    | nil =>
      simp only [List.map_nil, List.flatten_nil, List.append_nil]
      exact splitByte_of_not_mem _ _ (hsep e (List.mem_cons_self _ _))
    | cons r rs ih =>
      simp only [List.map_cons, List.flatten_cons, List.singleton_append, List.cons_append,
        List.nil_append] at ih ⊢
      rw [splitByte_append_sep _ _ _ (hsep e (List.mem_cons_self _ _))]
      rw [ih r (fun h hh => hsep h (List.mem_cons_of_mem _ hh))]

theorem StringMap.get_set_self (m : StringMap) (k x : GoString) :
    StringMap.get (StringMap.set m k x) k = some x := by
  induction m with
  | nil => simp [StringMap.set, StringMap.get]
  | cons e rest ih =>
    obtain ⟨k1, x1⟩ := e
    unfold StringMap.set
    split
    · rename_i h; simp [StringMap.get, h]
    · rename_i h; simp [StringMap.get, h, ih]

theorem StringMap.get_set_of_ne (m : StringMap) (k x j : GoString) (h : j ≠ k) :
    StringMap.get (StringMap.set m k x) j = StringMap.get m j := by
  induction m with
  | nil => simp [StringMap.set, StringMap.get, Ne.symm h]
  | cons e rest ih =>
    obtain ⟨k1, x1⟩ := e
    unfold StringMap.set
    split
    · rename_i h1
      subst h1
      simp [StringMap.get, Ne.symm h]
    · rename_i h1
      simp only [StringMap.get, ih]

/-! ## Lemmas: the prefix matcher -/

theorem HasPrefix_iff (s pre : GoString) : HasPrefix s pre = true ↔ pre <+: s := by
  unfold HasPrefix
  rw [Bool.and_eq_true, decide_eq_true_iff, decide_eq_true_iff]
  constructor
  · rintro ⟨_, h⟩
    rw [← h]
    exact List.take_prefix _ _
  · intro h
    refine ⟨h.length_le, ?_⟩
    exact List.prefix_iff_eq_take.mp h |>.symm

theorem TorrentSet.mem_set (m : TorrentSet) (t x : Torrent) :
    x ∈ m.set t ↔ x ∈ m ∨ x = t := by
  unfold TorrentSet.set
  split
  · constructor
    · exact Or.inl
    · rintro (h | rfl)
      · exact h
      · assumption
  · simp

theorem TorrentSet.nodup_set (m : TorrentSet) (t : Torrent) (h : m.Nodup) :
    (m.set t).Nodup := by
  unfold TorrentSet.set
  split
  · exact h
  · rename_i hn
    rw [List.nodup_append]
    refine ⟨h, List.nodup_singleton t, ?_⟩
    intro a ha hb
    rw [List.mem_singleton] at hb
    exact hn (hb ▸ ha)

theorem prefixLoop_eq (m : TorrentSet) (torrent : Torrent) (field : GoString)
    (terms : List GoString) :
    prefixLoop m torrent field terms =
      if ∃ p ∈ terms, p <+: field then m.set torrent else m := by
  induction terms with
  | nil => simp [prefixLoop]
  | cons p rest ih =>
    unfold prefixLoop
    by_cases hp : HasPrefix field p = true
    · have : ∃ q ∈ p :: rest, q <+: field := ⟨p, List.mem_cons_self _ _, (HasPrefix_iff _ _).mp hp⟩
      rw [if_pos hp, if_pos this]
    · rw [if_neg hp, ih]
      have hp2 : ¬ p <+: field := fun h => hp ((HasPrefix_iff _ _).mpr h)
      by_cases hr : ∃ q ∈ rest, q <+: field
      · obtain ⟨q, hq, hq2⟩ := hr
        rw [if_pos ⟨q, hq, hq2⟩, if_pos ⟨q, List.mem_cons_of_mem _ hq, hq2⟩]
      · rw [if_neg hr, if_neg]
        rintro ⟨q, hq, hq2⟩
        rcases List.mem_cons.mp hq with rfl | hq
        · exact hp2 hq2
        · exact hr ⟨q, hq, hq2⟩

theorem mem_matchStep (terms : List GoString) (hashes names : Bool)
    (m : TorrentSet) (t x : Torrent) :
    x ∈ matchStep terms hashes names m t ↔ x ∈ m ∨ (x = t ∧ Matches terms hashes names t) := by
  unfold matchStep Matches
  simp only [prefixLoop_eq, TorrentSet.get]
  cases hashes <;> cases names <;>
    by_cases h1 : ∃ p ∈ terms, p <+: t.Hash <;>
    by_cases h2 : ∃ p ∈ terms, p <+: t.Name <;>
    by_cases h3 : t ∈ m <;>
    simp [h1, h2, h3, TorrentSet.mem_set, TorrentSet.set] <;>
    (try (rintro rfl; exact h3))

theorem nodup_prefixLoop (m : TorrentSet) (torrent : Torrent) (field : GoString)
    (terms : List GoString) (h : m.Nodup) :
    (prefixLoop m torrent field terms).Nodup := by
  rw [prefixLoop_eq]
  split
  · exact TorrentSet.nodup_set _ _ h
  · exact h

theorem nodup_matchStep (terms : List GoString) (hashes names : Bool)
    (m : TorrentSet) (t : Torrent) (h : m.Nodup) :
    (matchStep terms hashes names m t).Nodup := by
  have h1 : (prefixLoop m t t.Hash terms).Nodup := nodup_prefixLoop _ _ _ _ h
  have h2 : (prefixLoop m t t.Name terms).Nodup := nodup_prefixLoop _ _ _ _ h
  have h3 : (prefixLoop (prefixLoop m t t.Hash terms) t t.Name terms).Nodup :=
    nodup_prefixLoop _ _ _ _ h1
  unfold matchStep
  cases hashes <;> cases names <;> dsimp only <;> split_ifs <;> assumption

theorem mem_foldl_matchStep (terms : List GoString) (hashes names : Bool)
    (torrents : List Torrent) (m : TorrentSet) (x : Torrent) :
    x ∈ torrents.foldl (matchStep terms hashes names) m ↔
      x ∈ m ∨ (x ∈ torrents ∧ Matches terms hashes names x) := by
  induction torrents generalizing m with
  | nil => simp
  | cons t rest ih =>
    rw [List.foldl_cons, ih, mem_matchStep, List.mem_cons]
    constructor
    · rintro ((h | ⟨rfl, h⟩) | ⟨h, h2⟩)
      · exact Or.inl h
      · exact Or.inr ⟨Or.inl rfl, h⟩
      · exact Or.inr ⟨Or.inr h, h2⟩
    · rintro (h | ⟨rfl | h, h2⟩)
      · exact Or.inl (Or.inl h)
      · exact Or.inl (Or.inr ⟨rfl, h2⟩)
      · exact Or.inr ⟨h, h2⟩

theorem nodup_foldl_matchStep (terms : List GoString) (hashes names : Bool)
    (torrents : List Torrent) (m : TorrentSet) (h : m.Nodup) :
    (torrents.foldl (matchStep terms hashes names) m).Nodup := by
  induction torrents generalizing m with
  | nil => exact h
  | cons t rest ih => exact ih _ (nodup_matchStep _ _ _ _ _ h)

theorem mem_matchByPrefix (ord : MapOrder) (torrents : List Torrent)
    (terms : List GoString) (hashes names : Bool) (x : Torrent) :
    x ∈ matchByPrefix ord torrents terms hashes names ↔
      x ∈ torrents ∧ Matches terms hashes names x := by
  unfold matchByPrefix matchedTorrents
  rw [(ord.perm _).mem_iff, mem_foldl_matchStep]
  simp

theorem nodup_matchByPrefix (ord : MapOrder) (torrents : List Torrent)
    (terms : List GoString) (hashes names : Bool) :
    (matchByPrefix ord torrents terms hashes names).Nodup := by
  unfold matchByPrefix matchedTorrents
  rw [(ord.perm _).nodup_iff]
  exact nodup_foldl_matchStep _ _ _ _ _ List.nodup_nil

theorem GetTorrentsByPrefixes_of_list (env : Env) (ord : MapOrder) (c c1 : Client)
    (L : List Torrent) (T : List GoString) (hashes names : Bool)
    (hL : GetTorrents env c = (.returned (L, none), c1)) :
    GetTorrentsByPrefixes env ord c T hashes names =
      (.returned (matchByPrefix ord L T hashes names, none), c1) := by
  unfold GetTorrentsByPrefixes
  rw [hL]

/-! ## Lemmas: the requests of the methods -/

theorem sent_DeleteTorrents (env : Env) (c : Client) (H : List GoString) (b : Bool) :
    (DeleteTorrents env c H b).2.sent = c.sent ++ [DeleteTorrents_request H b] := by
  unfold DeleteTorrents Client.send
  cases env.roundTrip (DeleteTorrents_request H b) with
  | error e => rfl
  | ok resp => dsimp only; split <;> rfl

theorem sent_ReAnnounceTorrents (env : Env) (c : Client) (H : List GoString) :
    (ReAnnounceTorrents env c H).2.sent = c.sent ++ [ReAnnounceTorrents_request H] := by
  unfold ReAnnounceTorrents Client.send
  cases env.roundTrip (ReAnnounceTorrents_request H) with
  | error e => rfl
  | ok resp => dsimp only; split <;> rfl

theorem sent_Pause (env : Env) (c : Client) (H : List GoString) :
    (Pause env c H).2.sent = c.sent ++ [Pause_request H] := by
  unfold Pause Client.send
  cases env.roundTrip (Pause_request H) with
  | error e => rfl
  | ok resp => dsimp only; split <;> rfl

theorem sent_Resume (env : Env) (c : Client) (H : List GoString) :
    (Resume env c H).2.sent = c.sent ++ [Resume_request H] := by
  unfold Resume Client.send
  cases env.roundTrip (Resume_request H) with
  | error e => rfl
  | ok resp => dsimp only; split <;> rfl

theorem Encode_DeleteTorrents_values (H : List GoString) (b : Bool) :
    Values.Encode (DeleteTorrents_values H b) =
      (QueryEscape (lit "deleteFiles") ++ ch '=' :: QueryEscape (FormatBool b)) ++
        ch '&' :: (QueryEscape (lit "hashes") ++ ch '=' :: QueryEscape (Join H (lit "|"))) :=
  Encode_two _ _ _ _ (by decide) (by decide)

theorem ParseQuery_DeleteTorrents_values (H : List GoString) (b : Bool) :
    ParseQuery (Values.Encode (DeleteTorrents_values H b)) =
      ([(lit "deleteFiles", [FormatBool b]), (lit "hashes", [Join H (lit "|")])], none) := by
  rw [Encode_DeleteTorrents_values, ParseQuery_two]
  simp [Values.Add, show lit "deleteFiles" ≠ lit "hashes" by decide]

theorem ParseQuery_hashes_values (H : List GoString) :
    ParseQuery (Values.Encode (hashes_values H)) =
      ([(lit "hashes", [Join H (lit "|")])], none) := by
  unfold hashes_values
  rw [Encode_one, ParseQuery_one]

/-! ## The claims -/

/-- C1, soundness of the prefix matcher: when the list operation returns the
list `L`, `GetTorrentsByPrefixes` returns a list `res` each element of which is
an element of `L` whose hash (with `hashes`) or whose name (with `names`)
starts with some term; with both flags off, or without terms, `res` is
empty. -/
theorem GetTorrentsByPrefixes_sound (env : Env) (ord : MapOrder) (c c1 : Client)
    (L : List Torrent) (T : List GoString) (hashes names : Bool)
    (hL : GetTorrents env c = (.returned (L, none), c1)) :
    ∃ res, GetTorrentsByPrefixes env ord c T hashes names = (.returned (res, none), c1) ∧
      (∀ t ∈ res, t ∈ L ∧
        ((hashes = true ∧ ∃ p ∈ T, p <+: t.Hash) ∨ (names = true ∧ ∃ p ∈ T, p <+: t.Name))) ∧
      ((hashes = false ∧ names = false) ∨ T = [] → res = []) := by
  refine ⟨_, GetTorrentsByPrefixes_of_list env ord c c1 L T hashes names hL, ?_, ?_⟩
  · intro t ht
    exact (mem_matchByPrefix ord L T hashes names t).mp ht
  · intro h
    apply List.eq_nil_iff_forall_not_mem.mpr
    intro t ht
    have hm := ((mem_matchByPrefix ord L T hashes names t).mp ht).2
    rcases h with ⟨h1, h2⟩ | h
    · rcases hm with ⟨hh, _⟩ | ⟨hn, _⟩
      · rw [h1] at hh; exact Bool.noConfusion hh
      · rw [h2] at hn; exact Bool.noConfusion hn
    · subst h
      rcases hm with ⟨_, p, hp, _⟩ | ⟨_, p, hp, _⟩ <;> exact List.not_mem_nil p hp

/-- C1 on an example: the service lists `movie`, the terms are `abc` and
`movie`, hashes are matched and names are not. -/
theorem GetTorrentsByPrefixes_sound_witness :
    GetTorrents (exampleEnv (reply 200 movieJSON)) client0 =
        (.returned ([movie], none),
          { client0 with sent := [GetTorrents_request] }) ∧
      ∃ res, GetTorrentsByPrefixes (exampleEnv (reply 200 movieJSON)) MapOrder.reversed client0
          [lit "abc", lit "movie"] true false =
            (.returned (res, none),
              { client0 with sent := [GetTorrents_request] }) ∧
        (∀ t ∈ res, t ∈ [movie] ∧
          ((true = true ∧ ∃ p ∈ [lit "abc", lit "movie"], p <+: t.Hash) ∨
            (false = true ∧ ∃ p ∈ [lit "abc", lit "movie"], p <+: t.Name))) ∧
        ((true = false ∧ false = false) ∨ [lit "abc", lit "movie"] = [] → res = []) :=
  ⟨by decide, GetTorrentsByPrefixes_sound _ _ _ _ _ _ _ _ (by decide)⟩

/-- C2, completeness of the prefix matcher: when the list operation returns
the list `L`, every torrent of `L` whose hash (with `hashes`) or whose name
(with `names`) starts with some term is an element of the list that
`GetTorrentsByPrefixes` returns, in whatever order the map is ranged over. -/
theorem GetTorrentsByPrefixes_complete (env : Env) (ord : MapOrder) (c c1 : Client)
    (L : List Torrent) (T : List GoString) (hashes names : Bool)
    (hL : GetTorrents env c = (.returned (L, none), c1))
    (t : Torrent) (ht : t ∈ L)
    (hm : (hashes = true ∧ ∃ p ∈ T, p <+: t.Hash) ∨ (names = true ∧ ∃ p ∈ T, p <+: t.Name)) :
    ∃ res, GetTorrentsByPrefixes env ord c T hashes names = (.returned (res, none), c1) ∧
      t ∈ res :=
  ⟨_, GetTorrentsByPrefixes_of_list env ord c c1 L T hashes names hL,
    (mem_matchByPrefix ord L T hashes names t).mpr ⟨ht, hm⟩⟩

/-- C2 on the example of the claim: the terms `abc` and `movie`, matching of
hashes only, and the one torrent `movie`; the result is exactly `movie`,
matched by its hash (its name does not start with `movie`). -/
theorem GetTorrentsByPrefixes_complete_witness :
    (GetTorrentsByPrefixes (exampleEnv (reply 200 movieJSON)) MapOrder.insertion client0
        [lit "abc", lit "movie"] true false).1 = .returned ([movie], none) ∧
      ¬ (lit "movie" <+: movie.Name) ∧
      ∃ res, GetTorrentsByPrefixes (exampleEnv (reply 200 movieJSON)) MapOrder.insertion client0
          [lit "abc", lit "movie"] true false =
            (.returned (res, none),
              { client0 with sent := [GetTorrents_request] }) ∧
        movie ∈ res :=
  ⟨by decide, by decide,
    GetTorrentsByPrefixes_complete (exampleEnv (reply 200 movieJSON)) MapOrder.insertion client0
      { client0 with sent := [GetTorrents_request] } [movie]
      [lit "abc", lit "movie"] true false (by decide) movie (by decide)
      (Or.inl ⟨rfl, lit "abc", by decide, by decide⟩)⟩

/-- C3 fails as stated: two records with one hash and different names are both
in the result. -/
theorem GetTorrentsByPrefixes_same_hash_twice :
    (GetTorrentsByPrefixes (exampleEnv (reply 200 twoRecordsJSON)) MapOrder.insertion client0
        [lit "abc"] true false).1 = .returned ([movie, movieRenamed], none) ∧
      movie.Hash = movieRenamed.Hash := by
  decide

/-- C3 as amended: the result of the prefix matcher is deduplicated by equality
of the whole record. No two distinct positions of the list that
`GetTorrentsByPrefixes` returns hold equal `Torrent` records; and when no two
different records of the fetched list `L` share a hash, no two distinct
positions of the result hold torrents with the same hash. -/
theorem GetTorrentsByPrefixes_dedup_by_record (env : Env) (ord : MapOrder) (c c1 : Client)
    (L : List Torrent) (T : List GoString) (hashes names : Bool)
    (hL : GetTorrents env c = (.returned (L, none), c1)) :
    ∃ res, GetTorrentsByPrefixes env ord c T hashes names = (.returned (res, none), c1) ∧
      res.Nodup ∧
      ((∀ a ∈ L, ∀ b ∈ L, a.Hash = b.Hash → a = b) → (res.map (fun t => t.Hash)).Nodup) := by
  refine ⟨_, GetTorrentsByPrefixes_of_list env ord c c1 L T hashes names hL,
    nodup_matchByPrefix ord L T hashes names, ?_⟩
  intro hinj
  refine (List.nodup_map_iff_inj_on (nodup_matchByPrefix ord L T hashes names)).mpr ?_
  intro a ha b hb hab
  exact hinj a ((mem_matchByPrefix ord L T hashes names a).mp ha).1 b
    ((mem_matchByPrefix ord L T hashes names b).mp hb).1 hab

/-- C3 as amended, on an example in which the fetched list holds the record
`movie` twice and `other` once, all three matching the term `abc`: the result
holds `movie` once. -/
theorem GetTorrentsByPrefixes_dedup_by_record_witness :
    GetTorrents (exampleEnv (reply 200 repeatedJSON)) client0 =
        (.returned ([movie, other, movie], none),
          { client0 with sent := [GetTorrents_request] }) ∧
      (∀ a ∈ [movie, other, movie], ∀ b ∈ [movie, other, movie], a.Hash = b.Hash → a = b) ∧
      (GetTorrentsByPrefixes (exampleEnv (reply 200 repeatedJSON)) MapOrder.insertion client0
        [lit "abc"] true true).1 = .returned ([movie, other], none) ∧
      ∃ res, GetTorrentsByPrefixes (exampleEnv (reply 200 repeatedJSON)) MapOrder.insertion
          client0 [lit "abc"] true true =
            (.returned (res, none),
              { client0 with sent := [GetTorrents_request] }) ∧
        res.Nodup ∧
        ((∀ a ∈ [movie, other, movie], ∀ b ∈ [movie, other, movie], a.Hash = b.Hash → a = b) →
          (res.map (fun t => t.Hash)).Nodup) :=
  ⟨by decide, by decide, by decide,
    GetTorrentsByPrefixes_dedup_by_record _ _ _ _ _ _ _ _ (by decide)⟩

/-- C4 at the failing input: every request is answered with status 403 and no
transport error, and each of the eight methods that inspect the status
returns to its caller with a nil error (the add methods with an empty hash
and a nil error). -/
theorem bad_status_returns_nil_error :
    (DeleteTorrents (exampleEnv (reply 403 (lit "Forbidden"))) client0 [lit "abcdef0123"] false).1
        = .returned none ∧
      (ReAnnounceTorrents (exampleEnv (reply 403 (lit "Forbidden"))) client0 [lit "abcdef0123"]).1
        = .returned none ∧
      (Pause (exampleEnv (reply 403 (lit "Forbidden"))) client0 [lit "abcdef0123"]).1
        = .returned none ∧
      (Resume (exampleEnv (reply 403 (lit "Forbidden"))) client0 [lit "abcdef0123"]).1
        = .returned none ∧
      (SetCategory (exampleEnv (reply 403 (lit "Forbidden"))) client0 [lit "abcdef0123"]
          (lit "films")).1 = .returned none ∧
      (SetTag (exampleEnv (reply 403 (lit "Forbidden"))) client0 [lit "abcdef0123"]
          (lit "seen")).1 = .returned none ∧
      (AddTorrentFromFile (exampleEnv (reply 403 (lit "Forbidden"))) client0
          (lit "movie.torrent") (some [])).1 = .returned ([], none) ∧
      (AddTorrentFromMagnet (exampleEnv (reply 403 (lit "Forbidden"))) client0
          magnetLink (some [])).1 = .returned ([], none) := by
  refine ⟨?_, ?_, ?_, ?_, ?_, ?_, ?_, ?_⟩ <;> rfl

/-- C5 fails as stated: on a refused connection `GetTorrents` and `Login` end
the process, and so do `Login` on status 403 and `GetTorrents` on a body that
is not JSON. -/
theorem transport_failure_is_fatal :
    (GetTorrents (exampleEnv refused) client0).1 = .fatal ∧
      (Login (exampleEnv refused) client0).1 = .fatal ∧
      (Login (exampleEnv (reply 403 (lit "Forbidden"))) client0).1 = .fatal ∧
      (GetTorrents (exampleEnv (reply 200 (lit "<html>"))) client0).1 = .fatal := by
  refine ⟨?_, ?_, ?_, ?_⟩ <;> rfl

/-- C5 as amended: each of the listed methods returns to its caller when the
request meets no transport-level failure and, for `Login`, the status is 200
(and the cookie URL parses when there are cookies to store) and, for the four
list methods, the body can be read and decodes as JSON; on a transport-level
failure, a login status other than 200, a body that cannot be read or a body
that is not JSON the method ends the process in `log.Fatalf`. -/
theorem returns_unless_fatal (env : Env) (c : Client) (hashes : List GoString)
    (deleteFiles : Bool) (filter category tag hash : GoString) :
    ((¬ env.answersOK (Login_request c) → (Login env c).1 = .fatal) ∧
      (∀ resp, env.roundTrip (Login_request c) = .ok resp → resp.StatusCode = StatusOK →
        resp.Cookies = [] ∨ env.urlParses (Login_reqUrl c) = true →
        (Login env c).1 = .returned none)) ∧
    ReturnsIff (GetTorrents env c).1 (env.answersTorrents GetTorrents_request) ∧
    ReturnsIff (GetTorrentsFilter env c filter).1
      (env.answersTorrents (GetTorrentsFilter_request filter)) ∧
    ReturnsIff (GetTorrentsByCategory env c category).1
      (env.answersTorrents (GetTorrentsByCategory_request category)) ∧
    ReturnsIff (GetTorrentTrackers env c hash).1
      (env.answersTrackers (GetTorrentTrackers_request hash)) ∧
    ReturnsIff (DeleteTorrents env c hashes deleteFiles).1
      (env.answers (DeleteTorrents_request hashes deleteFiles)) ∧
    ReturnsIff (Pause env c hashes).1 (env.answers (Pause_request hashes)) ∧
    ReturnsIff (Resume env c hashes).1 (env.answers (Resume_request hashes)) ∧
    ReturnsIff (ReAnnounceTorrents env c hashes).1 (env.answers (ReAnnounceTorrents_request hashes)) ∧
    ReturnsIff (SetCategory env c hashes category).1
      (env.answers (SetCategory_request hashes category)) ∧
    ReturnsIff (SetTag env c hashes tag).1 (env.answers (SetTag_request hashes tag)) := by
  refine ⟨?_, ?_, ?_, ?_, ?_, ?_, ?_, ?_, ?_, ?_, ?_⟩
  · unfold Env.answersOK Login Client.send
    refine ⟨?_, ?_⟩
    · intro hno
      cases h : env.roundTrip (Login_request c) with
      | error e => rfl
      | ok resp =>
        have hs : resp.StatusCode ≠ StatusOK := fun hs => hno ⟨resp, h, hs⟩
        simp [hs]
    · intro resp h hs hc
      rcases hc with hc | hc
      · simp [h, hs, hc]
      · by_cases hl : resp.Cookies.length > 0 <;> simp [h, hs, hc, hl]
  · unfold ReturnsIff Env.answersTorrents GetTorrents Client.send
    cases h : env.roundTrip (GetTorrents_request) with
    | error e => simp [h]
    | ok resp =>
      cases hb : resp.Body with
      | error e => simp [h, hb]
      | ok body =>
        cases hu : env.unmarshalTorrents body <;> simp [h, hb, hu, Outcome.isReturned]
  · unfold ReturnsIff Env.answersTorrents GetTorrentsFilter Client.send
    cases h : env.roundTrip (GetTorrentsFilter_request filter) with
    | error e => simp [h]
    | ok resp =>
      cases hb : resp.Body with
      | error e => simp [h, hb]
      | ok body =>
        cases hu : env.unmarshalTorrents body <;> simp [h, hb, hu, Outcome.isReturned]
  · unfold ReturnsIff Env.answersTorrents GetTorrentsByCategory Client.send
    cases h : env.roundTrip (GetTorrentsByCategory_request category) with
    | error e => simp [h]
    | ok resp =>
      cases hb : resp.Body with
      | error e => simp [h, hb]
      | ok body =>
        cases hu : env.unmarshalTorrents body <;> simp [h, hb, hu, Outcome.isReturned]
  · unfold ReturnsIff Env.answersTrackers GetTorrentTrackers Client.send
    cases h : env.roundTrip (GetTorrentTrackers_request hash) with
    | error e => simp [h]
    | ok resp =>
      cases hb : resp.Body with
      | error e => simp [h, hb]
      | ok body =>
        cases hu : env.unmarshalTrackers body <;> simp [h, hb, hu, Outcome.isReturned]
  · unfold ReturnsIff Env.answers DeleteTorrents Client.send
    cases h : env.roundTrip (DeleteTorrents_request hashes deleteFiles) <;> simp [h, Outcome.isReturned]
  · unfold ReturnsIff Env.answers Pause Client.send
    cases h : env.roundTrip (Pause_request hashes) <;> simp [h, Outcome.isReturned]
  · unfold ReturnsIff Env.answers Resume Client.send
    cases h : env.roundTrip (Resume_request hashes) <;> simp [h, Outcome.isReturned]
  · unfold ReturnsIff Env.answers ReAnnounceTorrents Client.send
    cases h : env.roundTrip (ReAnnounceTorrents_request hashes) <;> simp [h, Outcome.isReturned]
  · unfold ReturnsIff Env.answers SetCategory Client.send
    cases h : env.roundTrip (SetCategory_request hashes category) <;> simp [h, Outcome.isReturned]
  · unfold ReturnsIff Env.answers SetTag Client.send
    cases h : env.roundTrip (SetTag_request hashes tag) <;> simp [h, Outcome.isReturned]

/-- C5 as amended, on examples: a refused connection at `Login`, a body that
is not JSON at `GetTorrents`, and status 404 at `Pause`. -/
theorem returns_unless_fatal_witness :
    ¬ (exampleEnv refused).answersOK (Login_request client0) ∧
      (Login (exampleEnv refused) client0).1 = .fatal ∧
      ¬ (exampleEnv (reply 200 (lit "<html>"))).answersTorrents GetTorrents_request ∧
      (GetTorrents (exampleEnv (reply 200 (lit "<html>"))) client0).1 = .fatal ∧
      (exampleEnv (reply 404 (lit "Not Found"))).answers (Pause_request [lit "abcdef0123"]) ∧
      (Pause (exampleEnv (reply 404 (lit "Not Found"))) client0 [lit "abcdef0123"]).1.isReturned
        = true :=
  ⟨by rintro ⟨resp, h, _⟩; exact Except.noConfusion h,
    (returns_unless_fatal (exampleEnv refused) client0 [] false [] [] [] []).1.1
      (by rintro ⟨resp, h, _⟩; exact Except.noConfusion h),
    by
      rintro ⟨resp, body, ts, h, hb, hu⟩
      cases h
      cases hb
      have hbad : (exampleEnv (reply 200 (lit "<html>"))).unmarshalTorrents (lit "<html>")
          = .error ⟨lit "invalid character"⟩ := by decide
      rw [hbad] at hu
      exact Except.noConfusion hu,
    (returns_unless_fatal (exampleEnv (reply 200 (lit "<html>"))) client0 [] false [] [] []
      []).2.1.2
      (by
        rintro ⟨resp, body, ts, h, hb, hu⟩
        cases h
        cases hb
        have hbad : (exampleEnv (reply 200 (lit "<html>"))).unmarshalTorrents (lit "<html>")
            = .error ⟨lit "invalid character"⟩ := by decide
        rw [hbad] at hu
        exact Except.noConfusion hu),
    ⟨_, rfl⟩,
    (returns_unless_fatal (exampleEnv (reply 404 (lit "Not Found"))) client0
      [lit "abcdef0123"] false [] [] [] []).2.2.2.2.2.2.1.1 ⟨_, rfl⟩⟩

/-- C6: `DeleteTorrents`, `ReAnnounceTorrents`, `Pause` and `Resume` each issue
one GET whose query is the encoding of values in which `hashes` has the single
value `strings.Join(H, "|")`, also as read back from the query string by
`url.ParseQuery`; that value is the elements of `H` in order with one `|`
between neighbours; and for a non-empty `H` in which no hash is empty or holds
a `|`, splitting it on `|` gives back `H`. -/
theorem hashes_joined_by_pipe (env : Env) (c : Client) (H : List GoString) (b : Bool) :
    ((DeleteTorrents env c H b).2.sent = c.sent ++
        [Request.get (lit "torrents/delete?" ++ Values.Encode (DeleteTorrents_values H b)) none] ∧
      (ReAnnounceTorrents env c H).2.sent = c.sent ++
        [Request.get (lit "torrents/reannounce?" ++ Values.Encode (hashes_values H)) none] ∧
      (Pause env c H).2.sent = c.sent ++
        [Request.get (lit "torrents/pause?" ++ Values.Encode (hashes_values H)) none] ∧
      (Resume env c H).2.sent = c.sent ++
        [Request.get (lit "torrents/resume?" ++ Values.Encode (hashes_values H)) none]) ∧
    (Values.get (DeleteTorrents_values H b) (lit "hashes") = [Join H (lit "|")] ∧
      Values.get (hashes_values H) (lit "hashes") = [Join H (lit "|")]) ∧
    (Values.get (ParseQuery (Values.Encode (DeleteTorrents_values H b))).1 (lit "hashes")
        = [Join H (lit "|")] ∧
      Values.get (ParseQuery (Values.Encode (hashes_values H))).1 (lit "hashes")
        = [Join H (lit "|")]) ∧
    Join H (lit "|") = List.intercalate (lit "|") H ∧
    (H ≠ [] → (∀ h ∈ H, h ≠ [] ∧ ch '|' ∉ h) →
      splitByte (ch '|') (Join H (lit "|")) = H) := by
  refine ⟨⟨sent_DeleteTorrents env c H b, sent_ReAnnounceTorrents env c H, sent_Pause env c H,
    sent_Resume env c H⟩, ⟨?_, ?_⟩, ⟨?_, ?_⟩, Join_eq_intercalate H _, ?_⟩
  · simp [DeleteTorrents_values, Values.Add, Values.get,
      show lit "hashes" ≠ lit "deleteFiles" by decide]
  · simp [hashes_values, Values.Add, Values.get]
  · rw [ParseQuery_DeleteTorrents_values]
    simp [Values.get, show lit "deleteFiles" ≠ lit "hashes" by decide]
  · rw [ParseQuery_hashes_values]
    simp [Values.get]
  · intro hne hH
    exact splitByte_Join (ch '|') H hne (fun h hh => (hH h hh).2)

/-- C6 on an example: the hashes `abc` and `def`. -/
theorem hashes_joined_by_pipe_witness :
    [lit "abc", lit "def"] ≠ [] ∧
      (∀ h ∈ [lit "abc", lit "def"], h ≠ [] ∧ ch '|' ∉ h) ∧
      Join [lit "abc", lit "def"] (lit "|") = lit "abc|def" ∧
      splitByte (ch '|') (Join [lit "abc", lit "def"] (lit "|")) = [lit "abc", lit "def"] :=
  ⟨by decide, by decide, by decide,
    (hashes_joined_by_pipe (exampleEnv refused) client0 [lit "abc", lit "def"] false).2.2.2.2
      (by decide) (by decide)⟩

/-- C7 fails as stated: on status 403 with a JSON list as body `GetTorrents`
returns the decoded list and a nil error. -/
theorem list_ignores_status :
    (GetTorrents (exampleEnv (reply 403 movieJSON)) client0).1 = .returned ([movie], none) := by
  rfl

/-- C7 as amended: typed list decoding does not look at the status. For every
response, whatever its status code (403 included), whose body decodes as a
JSON list, `GetTorrents`, `GetTorrentsFilter`, `GetTorrentsByCategory` and
`GetTorrentTrackers` parse the body and return the decoded list with a nil
error. -/
theorem list_decoding_any_status (env : Env) (c : Client) (filter category hash : GoString)
    (status : Int) (body : GoString) (cookies : List GoString) :
    (∀ ts, env.roundTrip GetTorrents_request = .ok ⟨status, .ok body, cookies⟩ →
      env.unmarshalTorrents body = .ok ts →
      (GetTorrents env c).1 = .returned (ts, none)) ∧
    (∀ ts, env.roundTrip (GetTorrentsFilter_request filter) = .ok ⟨status, .ok body, cookies⟩ →
      env.unmarshalTorrents body = .ok ts →
      (GetTorrentsFilter env c filter).1 = .returned (ts, none)) ∧
    (∀ ts, env.roundTrip (GetTorrentsByCategory_request category)
        = .ok ⟨status, .ok body, cookies⟩ →
      env.unmarshalTorrents body = .ok ts →
      (GetTorrentsByCategory env c category).1 = .returned (ts, none)) ∧
    (∀ ts, env.roundTrip (GetTorrentTrackers_request hash) = .ok ⟨status, .ok body, cookies⟩ →
      env.unmarshalTrackers body = .ok ts →
      (GetTorrentTrackers env c hash).1 = .returned (ts, none)) := by
  refine ⟨?_, ?_, ?_, ?_⟩
  · intro ts h hu
    simp [GetTorrents, Client.send, h, hu]
  · intro ts h hu
    simp [GetTorrentsFilter, Client.send, h, hu]
  · intro ts h hu
    simp [GetTorrentsByCategory, Client.send, h, hu]
  · intro ts h hu
    simp [GetTorrentTrackers, Client.send, h, hu]

/-- C7 as amended, on an example with status 403. -/
theorem list_decoding_any_status_witness :
    (exampleEnv (reply 403 movieJSON)).roundTrip (GetTorrentsFilter_request (lit "seeding"))
        = .ok ⟨403, .ok movieJSON, []⟩ ∧
      (exampleEnv (reply 403 movieJSON)).unmarshalTorrents movieJSON = .ok [movie] ∧
      (GetTorrentsFilter (exampleEnv (reply 403 movieJSON)) client0 (lit "seeding")).1
        = .returned ([movie], none) :=
  ⟨rfl, by decide,
    (list_decoding_any_status (exampleEnv (reply 403 movieJSON)) client0 (lit "seeding") [] []
      403 movieJSON []).2.1 [movie] rfl (by decide)⟩

/-- C8: for a magnet link `u` that parses, with info hash `m`, and a non-nil
options map `o`, `AddTorrentFromMagnet` issues exactly one request, a POST to
`torrents/add` whose fields are `o` with `urls` set to `u`: the field `urls`
is `u`, every other key has the value it has in `o`; and when the answer has
status 200 the method returns the hex text of `m` and a nil error. -/
theorem AddTorrentFromMagnet_posts (env : Env) (c : Client) (u : GoString) (o : StringMap)
    (m : InfoHash) (hm : env.parseMagnetURI u = .ok m) :
    (AddTorrentFromMagnet env c u (some o)).2.sent =
        c.sent ++ [Request.post (lit "torrents/add") (some (StringMap.set o (lit "urls") u))] ∧
      StringMap.get (StringMap.set o (lit "urls") u) (lit "urls") = some u ∧
      (∀ k, k ≠ lit "urls" →
        StringMap.get (StringMap.set o (lit "urls") u) k = StringMap.get o k) ∧
      (∀ resp,
        env.roundTrip (Request.post (lit "torrents/add") (some (StringMap.set o (lit "urls") u)))
          = .ok resp →
        resp.StatusCode = 200 →
        (AddTorrentFromMagnet env c u (some o)).1 = .returned (HexString m, none)) := by
  refine ⟨?_, StringMap.get_set_self _ _ _, fun k hk => StringMap.get_set_of_ne _ _ _ _ hk, ?_⟩
  · unfold AddTorrentFromMagnet Client.send AddTorrentFromMagnet_request
    rw [hm]
    dsimp only
    cases env.roundTrip (Request.post (lit "torrents/add") (some (StringMap.set o (lit "urls") u)))
      with
    | error e => rfl
    | ok resp => dsimp only; split <;> rfl
  · intro resp h hs
    unfold AddTorrentFromMagnet Client.send AddTorrentFromMagnet_request
    rw [hm]
    dsimp only
    rw [h]
    simp [hs, StatusOK]

/-- C8 on the example of the claim: the options hold `category = films`. -/
theorem AddTorrentFromMagnet_posts_witness :
    (exampleEnv (reply 200 (lit "Ok."))).parseMagnetURI magnetLink = .ok magnetHash ∧
      HexString magnetHash = lit "aaaaaaaaaaaaaaaaaaaaaaaaaaaaaaaaaaaaaaaa" ∧
      StringMap.get (StringMap.set [(lit "category", lit "films")] (lit "urls") magnetLink)
        (lit "category") = some (lit "films") ∧
      ((AddTorrentFromMagnet (exampleEnv (reply 200 (lit "Ok."))) client0 magnetLink
          (some [(lit "category", lit "films")])).2.sent =
        client0.sent ++ [Request.post (lit "torrents/add")
          (some (StringMap.set [(lit "category", lit "films")] (lit "urls") magnetLink))] ∧
      StringMap.get (StringMap.set [(lit "category", lit "films")] (lit "urls") magnetLink)
        (lit "urls") = some magnetLink ∧
      (∀ k, k ≠ lit "urls" →
        StringMap.get (StringMap.set [(lit "category", lit "films")] (lit "urls") magnetLink) k
          = StringMap.get [(lit "category", lit "films")] k) ∧
      (∀ resp,
        (exampleEnv (reply 200 (lit "Ok."))).roundTrip (Request.post (lit "torrents/add")
            (some (StringMap.set [(lit "category", lit "films")] (lit "urls") magnetLink)))
          = .ok resp →
        resp.StatusCode = 200 →
        (AddTorrentFromMagnet (exampleEnv (reply 200 (lit "Ok."))) client0 magnetLink
          (some [(lit "category", lit "films")])).1 = .returned (HexString magnetHash, none))) :=
  ⟨by decide, by decide, by decide,
    AddTorrentFromMagnet_posts (exampleEnv (reply 200 (lit "Ok."))) client0 magnetLink
      [(lit "category", lit "films")] magnetHash (by decide)⟩

/-- C9: an add that is not confirmed returns no hash. For a torrent file that
parses locally and any options, when the upload meets a transport error or is
answered with a status other than 200, `AddTorrentFromFile` returns the empty
string as the hash. For a magnet link that parses locally and any non-nil
options, when the upload meets a transport error or is answered with a status
other than 200, `AddTorrentFromMagnet` returns the empty string as the hash;
with nil options it makes no upload at all and returns nothing. Each method is
taken on its own parseable input. -/
theorem unconfirmed_add_returns_no_hash (env : Env) (c : Client) (file u : GoString)
    (options : Option StringMap) (o : StringMap) :
    (∀ t, env.loadFromFile file = .ok t →
      (∀ e, env.roundTrip (AddTorrentFromFile_request file options) = .error e →
        (AddTorrentFromFile env c file options).1 = .returned ([], some e)) ∧
      (∀ resp, env.roundTrip (AddTorrentFromFile_request file options) = .ok resp →
        resp.StatusCode ≠ 200 →
        (AddTorrentFromFile env c file options).1 = .returned ([], none))) ∧
    (∀ m, env.parseMagnetURI u = .ok m →
      (∀ e, env.roundTrip (AddTorrentFromMagnet_request u o) = .error e →
        (AddTorrentFromMagnet env c u (some o)).1 = .returned ([], some e)) ∧
      (∀ resp, env.roundTrip (AddTorrentFromMagnet_request u o) = .ok resp →
        resp.StatusCode ≠ 200 →
        (AddTorrentFromMagnet env c u (some o)).1 = .returned ([], none)) ∧
      AddTorrentFromMagnet env c u none = (.crashed, c)) := by
  refine ⟨fun t ht => ⟨?_, ?_⟩, fun m hm => ⟨?_, ?_, ?_⟩⟩
  · intro e h
    simp [AddTorrentFromFile, Client.send, ht, h]
  · intro resp h hs
    simp [AddTorrentFromFile, Client.send, ht, h, hs, StatusOK]
  · intro e h
    simp [AddTorrentFromMagnet, Client.send, hm, h]
  · intro resp h hs
    simp [AddTorrentFromMagnet, Client.send, hm, h, hs, StatusOK]
  · simp [AddTorrentFromMagnet, hm]

/-- C9 on examples: the upload of `movie.torrent` meets a refused connection,
next to a link that does not parse; the upload of `magnetLink` is answered with
status 403, next to a file that does not load. -/
theorem unconfirmed_add_returns_no_hash_witness :
    ((exampleEnv refused).loadFromFile (lit "movie.torrent") = .ok magnetHash ∧
      (exampleEnv refused).parseMagnetURI (lit "nonsense")
        = .error ⟨lit "not a magnet link"⟩ ∧
      (exampleEnv refused).roundTrip (AddTorrentFromFile_request (lit "movie.torrent") none)
        = .error ⟨lit "connection refused"⟩ ∧
      (AddTorrentFromFile (exampleEnv refused) client0 (lit "movie.torrent") none).1
        = .returned ([], some ⟨lit "connection refused"⟩)) ∧
    ((exampleEnv (reply 403 (lit "Forbidden"))).parseMagnetURI magnetLink = .ok magnetHash ∧
      (exampleEnv (reply 403 (lit "Forbidden"))).loadFromFile (lit "missing.torrent")
        = .error ⟨lit "no such file"⟩ ∧
      HexString magnetHash ≠ [] ∧
      (AddTorrentFromMagnet (exampleEnv (reply 403 (lit "Forbidden"))) client0 magnetLink
        (some [(lit "category", lit "films")])).1 = .returned ([], none)) :=
  ⟨⟨by decide, by decide, rfl,
      ((unconfirmed_add_returns_no_hash (exampleEnv refused) client0 (lit "movie.torrent")
        (lit "nonsense") none []).1 magnetHash (by decide)).1 _ rfl⟩,
    ⟨by decide, by decide, by decide,
      ((unconfirmed_add_returns_no_hash (exampleEnv (reply 403 (lit "Forbidden"))) client0
        (lit "missing.torrent") magnetLink none [(lit "category", lit "films")]).2 magnetHash
        (by decide)).2.1 ⟨403, .ok (lit "Forbidden"), []⟩ rfl (by decide)⟩⟩

/-- C10: for every boolean `b` and every list of hashes, `DeleteTorrents`
issues one GET to `torrents/delete` whose query string, read by
`url.ParseQuery`, decodes without error and holds exactly one value for
`deleteFiles`; that value is the text `true` when `b` is true and `false` when
`b` is false, and `strconv.ParseBool` reads it back as `b`. -/
theorem deleteFiles_round_trip (env : Env) (c : Client) (H : List GoString) (b : Bool) :
    (DeleteTorrents env c H b).2.sent = c.sent ++
        [Request.get (lit "torrents/delete?" ++ Values.Encode (DeleteTorrents_values H b)) none] ∧
      (ParseQuery (Values.Encode (DeleteTorrents_values H b))).2 = none ∧
      Values.get (ParseQuery (Values.Encode (DeleteTorrents_values H b))).1 (lit "deleteFiles")
        = [FormatBool b] ∧
      FormatBool b = (if b then lit "true" else lit "false") ∧
      ParseBool (FormatBool b) = .ok b := by
  refine ⟨sent_DeleteTorrents env c H b, ?_, ?_, rfl, ?_⟩
  · rw [ParseQuery_DeleteTorrents_values]
  · rw [ParseQuery_DeleteTorrents_values]
    simp [Values.get]
  · cases b <;> decide

end Qbittorrent
